import Mathlib

/-!
Verification of the OpenHands SDK wrapper (Python sources under `sdk/`).

The development shallowly embeds the three modules the claims are about:
  * `sdk/config.py`            — provider-profile resolver (`get_llm_config`),
  * `sdk/openhands_client.py`  — async client facade and its sync wrapper,
  * `sdk/deepseek_cli.py`      — CLI file-based helpers.

Python strings handled character-by-character (the code-fence extractor) are
modelled as `List Char`; strings used only as opaque values are `String`.
The external OpenHands runtime is modelled as an arbitrary state-transition
function `σ → Action → Observation × σ`, universally quantified in theorems.
Python exceptions are modelled with `Except`.
-/

set_option maxRecDepth 4000

namespace OpenHands

/-! ## sdk/config.py -/

/-- A provider profile, one value of the `LLM_CONFIG` dict. -/
structure LLMProfile where
  model : String
  api_key : String
  base_url : String
deriving DecidableEq

/-- `os.getenv(key, default)`: the process environment is an explicit
parameter `env`. -/
def getenvD (env : String → Option String) (key dflt : String) : String :=
  (env key).getD dflt

/-- The `LLM_CONFIG` dict of `config.py` (lines 10–35), as an association
list in insertion order (Python dicts preserve insertion order). -/
def LLM_CONFIG (env : String → Option String) : List (String × LLMProfile) :=
  [ ("deepseek_local",
      { model := "ollama/deepseek-coder-v2:16b"
        api_key := "ollama"
        base_url := "http://localhost:11434" })
  , ("deepseek_api",
      { model := "deepseek-chat"
        api_key := getenvD env "DEEPSEEK_API_KEY" ""
        base_url := "https://api.deepseek.com/v1" })
  , ("openai",
      { model := "gpt-4o"
        api_key := getenvD env "OPENAI_API_KEY" ""
        base_url := "https://api.openai.com/v1" })
  , ("anthropic",
      { model := "claude-sonnet-4-20250514"
        api_key := getenvD env "ANTHROPIC_API_KEY" ""
        base_url := "https://api.anthropic.com" }) ]

/-- `DEFAULT_PROVIDER = os.getenv("LLM_PROVIDER", "deepseek_local")` (line 38). -/
def DEFAULT_PROVIDER (env : String → Option String) : String :=
  getenvD env "LLM_PROVIDER" "deepseek_local"

/-- `WORKSPACE_DIR = os.getenv("WORKSPACE_DIR", "./workspace")` (line 41). -/
def WORKSPACE_DIR (env : String → Option String) : String :=
  getenvD env "WORKSPACE_DIR" "./workspace"

/-- A single-quote character, as produced by Python `repr` of a string. -/
def sq : String := String.singleton (Char.ofNat 39)

/-- Python `str(list_of_strings)`: `repr` of a list of plain strings,
e.g. `list(LLM_CONFIG.keys())` rendered inside the f-string. -/
def pyListRepr (xs : List String) : String :=
  "[" ++ String.intercalate ", " (xs.map (fun s => sq ++ s ++ sq)) ++ "]"

/-- The message of the `ValueError` raised by `get_llm_config` (line 51):
`f"Unknown provider: {provider}. Available: {list(LLM_CONFIG.keys())}"`. -/
def unknownProviderMsg (env : String → Option String) (p : String) : String :=
  "Unknown provider: " ++ p ++ ". Available: " ++
    pyListRepr ((LLM_CONFIG env).map Prod.fst)

/-- `get_llm_config(provider=None)` (config.py lines 47–52).
`provider or DEFAULT_PROVIDER` treats both `None` and `""` (falsy) as
absent.  The raised `ValueError` is an `Except.error` carrying the
formatted message. -/
def get_llm_config (env : String → Option String) (provider : Option String) :
    Except String LLMProfile :=
  let p := match provider with
    | none => DEFAULT_PROVIDER env
    | some s => if s = "" then DEFAULT_PROVIDER env else s
  match (LLM_CONFIG env).find? (fun kv => kv.1 == p) with
  | some kv => Except.ok kv.2
  | none => Except.error (unknownProviderMsg env p)

/-! ## External runtime interface (openhands_client.py lines 12–28)

Action constructors and observation variants of the external OpenHands
library that the client populates and pattern-matches on. -/

/-- The action objects the client constructs. -/
inductive Action where
  | cmdRun (command : String)
  | fileRead (path : String)
  | fileWrite (path : String) (content : String)
  | browseURL (url : String)
  | message (content : String)
deriving DecidableEq

/-- The observation variants the client pattern-matches (`isinstance`),
plus a representative of any other observation kind the runtime may
return (e.g. an error observation). -/
inductive Observation where
  | cmdOutput (content : String)
  | fileRead (content : String)
  | fileWrite (content : String)
  | browserOutput (url : String) (content : String) (screenshot : String)
  | errorObs (msg : String)
deriving DecidableEq

/-- Python `str(observation)`: the textual rendering used by the fallback
branches.  The external `__str__` is unspecified; it is modelled as a
fixed tagged rendering, used consistently by code and theorems. -/
def obsStr : Observation → String
  | .cmdOutput c => "CmdOutputObservation: " ++ c
  | .fileRead c => "FileReadObservation: " ++ c
  | .fileWrite c => "FileWriteObservation: " ++ c
  | .browserOutput u c s => "BrowserOutputObservation: " ++ u ++ " " ++ c ++ " " ++ s
  | .errorObs m => "ErrorObservation: " ++ m

/-- Whether an observation is the browser-output variant
(`isinstance(observation, BrowserOutputObservation)`). -/
def Observation.isBrowserOutput : Observation → Bool
  | .browserOutput _ _ _ => true
  | _ => false

/-- Python exceptions surfaced by the client layer. -/
inductive PyErr where
  | attributeError
  | fileNotFoundError
  | runtimeError (msg : String)
deriving DecidableEq

/-! ## sdk/openhands_client.py — OpenHandsClient -/

/-- The mutable state of an `OpenHandsClient` instance: `self.provider`,
`self.workspace_dir`, `self.verbose`, `self.runtime` (`None` until
`start`).  `σ` is the opaque type of external runtime handles. -/
structure Client (σ : Type) where
  provider : String
  workspace_dir : String
  verbose : Bool
  runtime : Option σ
deriving DecidableEq

/-- `OpenHandsClient.__init__` (lines 51–91): resolves the profile via
`get_llm_config` (which may raise), resolves the workspace directory
(argument or `WORKSPACE_DIR` default), and sets `self.runtime = None`
(line 89).  The `AppConfig` construction and directory creation are
external effects with no bearing on the claims. -/
def initClient {σ : Type} (env : String → Option String) (provider : String)
    (workspace_dir : Option String) (verbose : Bool) :
    Except String (Client σ) :=
  match get_llm_config env (some provider) with
  | Except.error e => Except.error e
  | Except.ok _ =>
      Except.ok { provider := provider
                  workspace_dir := workspace_dir.getD (WORKSPACE_DIR env)
                  verbose := verbose
                  runtime := none }

/-- `Path(self.workspace_dir) / filepath` for a relative `filepath`. -/
def resolvePath (workspace filepath : String) : String :=
  workspace ++ "/" ++ filepath

/-- `run_command` (lines 111–129).  `self.runtime.run_action` on
`self.runtime = None` raises `AttributeError`; otherwise the command
output is unwrapped from a `CmdOutputObservation`, with `str(obs)` as
fallback.  `step` is the external runtime's `run_action` semantics,
threading its hidden state. -/
def runCommand {σ : Type} (step : σ → Action → Observation × σ)
    (c : Client σ) (command : String) : Except PyErr (String × Client σ) :=
  match c.runtime with
  | none => Except.error PyErr.attributeError
  | some r =>
      let res := step r (Action.cmdRun command)
      match res.1 with
      | Observation.cmdOutput out => Except.ok (out, { c with runtime := some res.2 })
      | o => Except.ok (obsStr o, { c with runtime := some res.2 })

/-- `read_file` (lines 131–149): resolves the path against the workspace,
submits a `FileReadAction`, returns the observation content when the
observation is a `FileReadObservation`, else `str(obs)`. -/
def readFile {σ : Type} (step : σ → Action → Observation × σ)
    (c : Client σ) (filepath : String) : Except PyErr (String × Client σ) :=
  match c.runtime with
  | none => Except.error PyErr.attributeError
  | some r =>
      let res := step r (Action.fileRead (resolvePath c.workspace_dir filepath))
      match res.1 with
      | Observation.fileRead content => Except.ok (content, { c with runtime := some res.2 })
      | o => Except.ok (obsStr o, { c with runtime := some res.2 })

/-- `write_file` (lines 151–172): resolves the path, submits a
`FileWriteAction` with the content, returns whether the observation is a
`FileWriteObservation` (`success` flag).  The `mkdir` of parent
directories is an external filesystem effect. -/
def writeFile {σ : Type} (step : σ → Action → Observation × σ)
    (c : Client σ) (filepath content : String) : Except PyErr (Bool × Client σ) :=
  match c.runtime with
  | none => Except.error PyErr.attributeError
  | some r =>
      let res := step r (Action.fileWrite (resolvePath c.workspace_dir filepath) content)
      let success := match res.1 with
        | Observation.fileWrite _ => true
        | _ => false
      Except.ok (success, { c with runtime := some res.2 })

/-- `browse_url` (lines 174–195): submits a `BrowseURLAction`; on a
`BrowserOutputObservation` returns the dict
`{"url": …, "content": …, "screenshot": …}`, else `{"content": str(obs)}`.
Python dict literals are modelled as association lists in key order. -/
def browseUrl {σ : Type} (step : σ → Action → Observation × σ)
    (c : Client σ) (url : String) :
    Except PyErr (List (String × String) × Client σ) :=
  match c.runtime with
  | none => Except.error PyErr.attributeError
  | some r =>
      let res := step r (Action.browseURL url)
      match res.1 with
      | Observation.browserOutput u co s =>
          Except.ok ([("url", u), ("content", co), ("screenshot", s)],
                     { c with runtime := some res.2 })
      | o => Except.ok ([("content", obsStr o)], { c with runtime := some res.2 })

/-- `stop` (lines 105–109): `if self.runtime: await self.runtime.close()`.
`close` is the external runtime's close, which may itself raise; the
returned list records the handles `close` was invoked on.  Note the
source does not clear `self.runtime`, so the client state is returned
unchanged. -/
def stopClient {σ : Type} (close : σ → Except PyErr Unit) (c : Client σ) :
    Except PyErr (Client σ × List σ) :=
  match c.runtime with
  | none => Except.ok (c, [])
  | some r =>
      match close r with
      | Except.ok _ => Except.ok (c, [r])
      | Except.error e => Except.error e

/-! ## Code-fence extraction (`_extract_code_from_state`, lines 256–274)

Python string scanning is performed character-by-character, so the
event contents here are `List Char`. -/

/-- The backquote character. -/
def bt : Char := Char.ofNat 96

/-- The fence delimiter, Python literal containing three backquotes. -/
def fence : List Char := [bt, bt, bt]

/-- An event of `state.history`: `content := none` models an event
without a `content` attribute (`hasattr` fails); `str(event.content)` is
the identity on our textual contents. -/
structure Event where
  content : Option (List Char)
deriving DecidableEq

/-- `s.startswith(pat)` / list-prefix test, executable. -/
def isPre : List Char → List Char → Bool
  | [], _ => true
  | _ :: _, [] => false
  | a :: as, b :: bs => a == b && isPre as bs

/-- Python `s.find(pat)`: index of the first occurrence of `pat` in `s`,
`none` when absent (Python returns `-1`). -/
def pyFind (pat : List Char) : List Char → Option Nat
  | [] => if isPre pat [] then some 0 else none
  | c :: s => if isPre pat (c :: s) then some 0 else Option.map (· + 1) (pyFind pat s)

/-- Python `s.rfind(pat)`: index of the last occurrence of `pat` in `s`. -/
def pyRfind (pat : List Char) : List Char → Option Nat
  | [] => if isPre pat [] then some 0 else none
  | c :: s =>
      match pyRfind pat s with
      | some i => some (i + 1)
      | none => if isPre pat (c :: s) then some 0 else none

/-- `pat` occurs in `s` at position `i`. -/
def occursAt (pat s : List Char) (i : Nat) : Prop :=
  pat <+: s.drop i

/-- Python `s.split('\n')` on character lists.  Always non-empty. -/
def splitNl : List Char → List (List Char)
  | [] => [[]]
  | c :: rest =>
      if c = '\n' then [] :: splitNl rest
      else
        match splitNl rest with
        | [] => [[c]]
        | l :: ls => (c :: l) :: ls

/-- Python `'\n'.join(lines)`. -/
def joinNl : List (List Char) → List Char
  | [] => []
  | [l] => l
  | l :: ls => l ++ '\n' :: joinNl ls

/-- Lines 266–273: given the slice `content[start:end+3]`, split into
lines, drop the first line if it starts with the fence, drop the last
line if it equals the fence, and join.  Python `lines[-1]` on an empty
list raises `IndexError`, modelled by `none`; `splitNl` never returns
`[]`, so that match arm is unreachable. -/
def stripAndJoin (code : List Char) : Option (List Char) :=
  match splitNl code with
  | [] => none
  | l0 :: rest =>
      let lines := if isPre fence l0 then rest else l0 :: rest
      match lines.getLast? with
      | none => none
      | some last =>
          some (joinNl (if last = fence then lines.dropLast else lines))

/-- The body of the loop of `_extract_code_from_state` for one event
content (lines 260–273): `some r` means the function returns `r` here
(`r : Option _` because the line handling can raise `IndexError`);
`none` means the loop moves to the next event.  The membership test
`'```' in content` succeeds exactly when `pyFind` does. -/
def processContent (content : List Char) : Option (Option (List Char)) :=
  match pyFind fence content, pyRfind fence content with
  | some s, some e =>
      if s = e then none
      else some (stripAndJoin ((content.drop s).take (e + 3 - s)))
  | _, _ => none

/-- The `for event in reversed(state.history)` loop, acting on the
already-reversed history.  Returns `some ""` (here `some []`) when the
loop falls through (line 274). -/
def extractLoop : List Event → Option (List Char)
  | [] => some []
  | ev :: rest =>
      match ev.content with
      | none => extractLoop rest
      | some content =>
          match processContent content with
          | some r => r
          | none => extractLoop rest

/-- `_extract_code_from_state(state)` over the state's event history. -/
def extractCodeFromState (history : List Event) : Option (List Char) :=
  extractLoop history.reverse

/-- The opening fence line of a ```` ```python ```` block, with its
terminating newline. -/
def openFence : List Char := "```python\n".toList

/-- The closing `\n` plus fence. -/
def closeFence : List Char := "\n```".toList

/-! ## sdk/openhands_client.py — OpenHandsSync -/

/-- `OpenHandsSync` (lines 277–319): holds the wrapped client; its
dedicated event loop drives each coroutine to completion, so each method
is the synchronous image of the client method. -/
structure SyncClient (σ : Type) where
  client : Client σ
deriving DecidableEq

/-- `OpenHandsSync.__init__`: constructs the underlying
`OpenHandsClient` (so `runtime` is `None` until `start`). -/
def initSync {σ : Type} (env : String → Option String) (provider : String)
    (workspace_dir : Option String) (verbose : Bool) :
    Except String (SyncClient σ) :=
  match initClient (σ := σ) env provider workspace_dir verbose with
  | Except.error e => Except.error e
  | Except.ok c => Except.ok { client := c }

/-- `OpenHandsSync.run_command` (lines 296–297): runs the client
coroutine to completion on the dedicated loop. -/
def syncRunCommand {σ : Type} (step : σ → Action → Observation × σ)
    (sc : SyncClient σ) (command : String) : Except PyErr (String × Client σ) :=
  runCommand step sc.client command

/-! ## sdk/deepseek_cli.py — file-based operations -/

/-- The prompt built by `review_file` (lines 86–99). -/
def reviewPrompt (code : String) : String :=
  "Review this code and provide detailed feedback:\n\n```\n" ++ code ++
  "\n```\n\nCheck for:\n1. Bugs and errors\n2. Security vulnerabilities\n" ++
  "3. Performance issues\n4. Code style and best practices\n" ++
  "5. Suggestions for improvement\n\nBe specific and provide examples."

/-- The prompt built by `explain_file` (lines 113–123). -/
def explainPrompt (code : String) : String :=
  "Explain this code in detail:\n\n```\n" ++ code ++
  "\n```\n\nProvide:\n1. Overview of what the code does\n" ++
  "2. Step-by-step explanation\n3. Key concepts used\n4. Potential improvements"

/-- The prompt built by `fix_file` (lines 137–145); `error` is the
optional `--error` message. -/
def fixPrompt (code : String) (error : Option String) : String :=
  "Fix this code:" ++ (match error with
    | some e => "\nError: " ++ e
    | none => "") ++
  "\n\n```\n" ++ code ++
  "\n```\n\nProvide the corrected code with comments explaining the fixes."

/-- The `console.print` message on `FileNotFoundError`. -/
def fileNotFoundMsg (filepath : String) : String :=
  "[red]File not found: " ++ filepath ++ "[/red]"

/-- `review_file` (lines 77–101).  `fs` is the filesystem (`open` raises
`FileNotFoundError` on `none`); `llm prompt model` is the external
`stream_response`.  Returns the console messages this function prints on
the error path, and the returned string. -/
def review_file (llm : String → String → String) (fs : String → Option String)
    (filepath model : String) : Except PyErr (List String × String) :=
  match fs filepath with
  | none => Except.ok ([fileNotFoundMsg filepath], "")
  | some code => Except.ok ([], llm (reviewPrompt code) model)

/-- `explain_file` (lines 104–125). -/
def explain_file (llm : String → String → String) (fs : String → Option String)
    (filepath model : String) : Except PyErr (List String × String) :=
  match fs filepath with
  | none => Except.ok ([fileNotFoundMsg filepath], "")
  | some code => Except.ok ([], llm (explainPrompt code) model)

/-- `fix_file` (lines 128–147). -/
def fix_file (llm : String → String → String) (fs : String → Option String)
    (filepath : String) (error : Option String) (model : String) :
    Except PyErr (List String × String) :=
  match fs filepath with
  | none => Except.ok ([fileNotFoundMsg filepath], "")
  | some code => Except.ok ([], llm (fixPrompt code error) model)

/-- A store-based instantiation of the external runtime used by concrete
witnesses: a well-behaved runtime whose state is the written file map. -/
def storeStep (s : List (String × String)) : Action → Observation × List (String × String)
  | Action.fileWrite p c => (Observation.fileWrite c, (p, c) :: s)
  | Action.fileRead p =>
      match s.find? (fun kv => kv.1 == p) with
      | some kv => (Observation.fileRead kv.2, s)
      | none => (Observation.errorObs "File not found", s)
  | Action.cmdRun _ => (Observation.cmdOutput "", s)
  | Action.browseURL u => (Observation.browserOutput u "" "", s)
  | Action.message _ => (Observation.errorObs "", s)

/-- `DEFAULT_MODEL` of `deepseek_cli.py` (line 29). -/
def DEFAULT_MODEL : String := "deepseek-coder-v2:16b"

/-- An event the loop moves past: no `content` attribute, or a content
whose fence handling falls through. -/
def Skippable (ev : Event) : Prop :=
  ev.content = none ∨ ∃ c, ev.content = some c ∧ processContent c = none

/-! ## Lemmas: prefix tests and occurrence positions -/

lemma isPre_iff (p s : List Char) : isPre p s = true ↔ p <+: s := by
  induction p generalizing s with
  | nil => simp [isPre, List.nil_prefix]
  | cons a as ih =>
    cases s with
    | nil => simp [isPre, List.prefix_nil]
    | cons b bs => simp [isPre, List.cons_prefix_cons, ih]

lemma fence_ne_nil : fence ≠ [] := by simp [fence]

lemma prefix_fence_iff (l : List Char) :
    fence <+: l ↔ (l[0]? = some bt ∧ l[1]? = some bt ∧ l[2]? = some bt) := by
  match l with
  | [] => simp [fence]
  | [a] => simp [fence, List.cons_prefix_cons, List.prefix_nil]
  | [a, b] => simp [fence, List.cons_prefix_cons, List.prefix_nil]
  | a :: b :: c :: r =>
    simp [fence, List.cons_prefix_cons, List.nil_prefix, eq_comm]

lemma occursAt_iff (s : List Char) (i : Nat) :
    occursAt fence s i ↔
      (s[i]? = some bt ∧ s[i + 1]? = some bt ∧ s[i + 2]? = some bt) := by
  rw [occursAt, prefix_fence_iff]
  simp [List.getElem?_drop]

lemma occursAt_contains {s : List Char} {i : Nat} (h : occursAt fence s i) :
    fence <:+: s := by
  obtain ⟨t, ht⟩ := h
  exact ⟨s.take i, t, by rw [List.append_assoc, ht, List.take_append_drop]⟩

lemma contains_occursAt {s : List Char} (h : fence <:+: s) :
    ∃ i, occursAt fence s i := by
  obtain ⟨u, v, huv⟩ := h
  refine ⟨u.length, ?_⟩
  rw [occursAt, ← huv, List.append_assoc, List.drop_left]
  exact List.prefix_append _ _

lemma occursAt_bound {s : List Char} {i : Nat} (h : occursAt fence s i) :
    i + 3 ≤ s.length := by
  have h1 := h.length_le
  simp only [fence, List.length_cons, List.length_nil, List.length_drop] at h1
  omega

/-! ## Lemmas: `pyFind` and `pyRfind` -/

lemma pyFind_sound {pat s : List Char} {i : Nat} (h : pyFind pat s = some i) :
    pat <+: s.drop i := by
  induction s generalizing i with
  | nil =>
    rw [pyFind] at h
    by_cases hp : isPre pat [] = true
    · rw [if_pos hp] at h
      cases h
      exact (isPre_iff _ _).mp hp
    · rw [if_neg hp] at h
      cases h
  | cons c s ih =>
    rw [pyFind] at h
    by_cases hp : isPre pat (c :: s) = true
    · rw [if_pos hp] at h
      cases h
      exact (isPre_iff _ _).mp hp
    · rw [if_neg hp] at h
      cases hf : pyFind pat s with
      | none => rw [hf] at h; cases h
      | some j =>
        rw [hf] at h
        simp only [Option.map_some', Option.some.injEq] at h
        subst h
        simpa using ih hf

lemma pyFind_eq_some {pat s : List Char} {m : Nat}
    (h1 : pat <+: s.drop m) (h2 : ∀ j, j < m → ¬ pat <+: s.drop j) :
    pyFind pat s = some m := by
  induction s generalizing m with
  | nil =>
    cases m with
    | zero => rw [pyFind, if_pos ((isPre_iff _ _).mpr (by simpa using h1))]
    | succ k =>
      exact absurd (by simpa using h1 : pat <+: ([] : List Char))
        (by simpa using h2 0 (Nat.succ_pos k))
  | cons c s ih =>
    cases m with
    | zero => rw [pyFind, if_pos ((isPre_iff _ _).mpr (by simpa using h1))]
    | succ k =>
      rw [pyFind, if_neg, ih (by simpa using h1)
        (fun j hj => by simpa using h2 (j + 1) (by omega))]
      · rfl
      · simp only [isPre_iff]
        simpa using h2 0 (Nat.succ_pos k)

lemma pyFind_eq_none {pat s : List Char} (h : ∀ j, ¬ pat <+: s.drop j) :
    pyFind pat s = none := by
  induction s with
  | nil => rw [pyFind, if_neg (by simp only [isPre_iff]; simpa using h 0)]
  | cons c s ih =>
    rw [pyFind, if_neg (by simp only [isPre_iff]; simpa using h 0),
      ih (fun j => by simpa using h (j + 1))]
    rfl

lemma pyRfind_sound {pat s : List Char} {i : Nat} (h : pyRfind pat s = some i) :
    pat <+: s.drop i := by
  induction s generalizing i with
  | nil =>
    rw [pyRfind] at h
    by_cases hp : isPre pat [] = true
    · rw [if_pos hp] at h
      cases h
      exact (isPre_iff _ _).mp hp
    · rw [if_neg hp] at h
      cases h
  | cons c s ih =>
    rw [pyRfind] at h
    cases hf : pyRfind pat s with
    | some j =>
      simp only [hf, Option.some.injEq] at h
      subst h
      simpa using ih hf
    | none =>
      simp only [hf] at h
      by_cases hp : isPre pat (c :: s) = true
      · rw [if_pos hp] at h
        cases h
        exact (isPre_iff _ _).mp hp
      · rw [if_neg hp] at h
        cases h

lemma pyRfind_eq_some {pat s : List Char} {m : Nat}
    (h1 : pat <+: s.drop m) (h2 : ∀ j, m < j → ¬ pat <+: s.drop j) :
    pyRfind pat s = some m := by
  induction s generalizing m with
  | nil =>
    exact absurd (by simpa using h1 : pat <+: ([] : List Char))
      (by simpa using h2 (m + 1) (by omega))
  | cons c s ih =>
    cases m with
    | zero =>
      have hnone : pyRfind pat s = none := by
        cases hf : pyRfind pat s with
        | none => rfl
        | some j =>
          exact absurd (by simpa using pyRfind_sound hf : pat <+: (c :: s).drop (j + 1))
            (h2 (j + 1) (by omega))
      rw [pyRfind, hnone, if_pos ((isPre_iff _ _).mpr (by simpa using h1))]
    | succ k =>
      rw [pyRfind, ih (by simpa using h1)
        (fun j hj => by simpa using h2 (j + 1) (by omega))]

/-! ## Lemmas: `splitNl` / `joinNl` -/

lemma splitNl_ne_nil (s : List Char) : splitNl s ≠ [] := by
  cases s with
  | nil => simp [splitNl]
  | cons c rest =>
    rw [splitNl]
    by_cases hc : c = '\n'
    · rw [if_pos hc]; simp
    · rw [if_neg hc]
      cases splitNl rest <;> simp

lemma splitNl_append (A B : List Char) :
    splitNl (A ++ '\n' :: B) = splitNl A ++ splitNl B := by
  induction A with
  | nil => simp [splitNl]
  | cons c A ih =>
    by_cases hc : c = '\n'
    · subst hc
      rw [List.cons_append, splitNl, if_pos rfl, ih, splitNl, if_pos rfl,
        List.cons_append]
    · rw [List.cons_append, splitNl, if_neg hc, ih, splitNl, if_neg hc]
      cases hsp : splitNl A with
      | nil => exact absurd hsp (splitNl_ne_nil A)
      | cons l ls => simp

lemma joinNl_splitNl (s : List Char) : joinNl (splitNl s) = s := by
  induction s with
  | nil => simp [splitNl, joinNl]
  | cons c rest ih =>
    by_cases hc : c = '\n'
    · subst hc
      rw [splitNl, if_pos rfl]
      cases hsp : splitNl rest with
      | nil => exact absurd hsp (splitNl_ne_nil rest)
      | cons l ls =>
        rw [hsp] at ih
        simp [joinNl, ih]
    · rw [splitNl, if_neg hc]
      cases hsp : splitNl rest with
      | nil => exact absurd hsp (splitNl_ne_nil rest)
      | cons l ls =>
        rw [hsp] at ih
        cases ls with
        | nil => simpa [joinNl] using congrArg (c :: ·) ih
        | cons l2 ls2 => simpa [joinNl] using congrArg (c :: ·) ih

/-! ## Lemmas: occurrence positions inside a fenced block -/

lemma btAbsent_le {l r : List Char} {k : Nat} (hl : bt ∉ l)
    (h : (l ++ r)[k]? = some bt) : l.length ≤ k := by
  by_contra hk
  push_neg at hk
  rw [List.getElem?_append_left hk] at h
  exact hl (List.getElem?_mem h)

lemma btAbsent_mem {r : List Char} {k : Nat} (hr : bt ∉ r)
    (h : r[k]? = some bt) : False :=
  hr (List.getElem?_mem h)

lemma openFence_length : openFence.length = 10 := rfl

lemma closeFence_length : closeFence.length = 4 := rfl

/-- In `pre ++ "```python\n" ++ X ++ "\n```" ++ post` with no backquote in
`pre` or `post` and no fence occurrence inside `X`, the fence occurs only
at the start of the opening fence line and at the closing fence. -/
lemma occ_in_block {pre X post : List Char} (hpre : bt ∉ pre) (hpost : bt ∉ post)
    (hX : ∀ k, ¬ occursAt fence X k) {i : Nat}
    (h : occursAt fence (pre ++ (openFence ++ (X ++ (closeFence ++ post)))) i) :
    i = pre.length ∨ i = pre.length + X.length + 11 := by
  rw [occursAt_iff] at h
  obtain ⟨h0, h1, h2⟩ := h
  have hP : pre.length ≤ i := btAbsent_le hpre h0
  obtain ⟨j, rfl⟩ : ∃ j, i = pre.length + j := ⟨i - pre.length, by omega⟩
  rw [List.getElem?_append_right (by omega : pre.length ≤ pre.length + j),
    (show pre.length + j - pre.length = j by omega)] at h0
  rw [List.getElem?_append_right (by omega : pre.length ≤ pre.length + j + 1),
    (show pre.length + j + 1 - pre.length = j + 1 by omega)] at h1
  rw [List.getElem?_append_right (by omega : pre.length ≤ pre.length + j + 2),
    (show pre.length + j + 2 - pre.length = j + 2 by omega)] at h2
  by_cases hj10 : j < 10
  · rw [List.getElem?_append_left (by rw [openFence_length]; omega)] at h0
    interval_cases j
    · exact Or.inl (by omega)
    · rw [List.getElem?_append_left (by rw [openFence_length]; omega)] at h2
      exact absurd h2 (by decide)
    · rw [List.getElem?_append_left (by rw [openFence_length]; omega)] at h2
      exact absurd h2 (by decide)
    · exact absurd h0 (by decide)
    · exact absurd h0 (by decide)
    · exact absurd h0 (by decide)
    · exact absurd h0 (by decide)
    · exact absurd h0 (by decide)
    · exact absurd h0 (by decide)
    · exact absurd h0 (by decide)
  · rw [List.getElem?_append_right (by rw [openFence_length]; omega),
      openFence_length] at h0 h1 h2
    obtain ⟨k, rfl⟩ : ∃ k, j = 10 + k := ⟨j - 10, by omega⟩
    rw [(show 10 + k - 10 = k by omega)] at h0
    rw [(show 10 + k + 1 - 10 = k + 1 by omega)] at h1
    rw [(show 10 + k + 2 - 10 = k + 2 by omega)] at h2
    rcases (by omega :
        k + 3 ≤ X.length ∨ k + 2 = X.length ∨ k + 1 = X.length ∨
        k = X.length ∨ k = X.length + 1 ∨ k = X.length + 2 ∨
        k = X.length + 3 ∨ X.length + 4 ≤ k) with
      hc | hc | hc | hc | hc | hc | hc | hc
    · rw [List.getElem?_append_left (by omega)] at h0
      rw [List.getElem?_append_left (by omega)] at h1
      rw [List.getElem?_append_left (by omega)] at h2
      exact absurd ((occursAt_iff X k).mpr ⟨h0, h1, h2⟩) (hX k)
    · rw [List.getElem?_append_right (by omega : X.length ≤ k + 2),
        (show k + 2 - X.length = 0 by omega),
        List.getElem?_append_left (by rw [closeFence_length]; omega)] at h2
      exact absurd h2 (by decide)
    · rw [List.getElem?_append_right (by omega : X.length ≤ k + 1),
        (show k + 1 - X.length = 0 by omega),
        List.getElem?_append_left (by rw [closeFence_length]; omega)] at h1
      exact absurd h1 (by decide)
    · rw [List.getElem?_append_right (by omega : X.length ≤ k),
        (show k - X.length = 0 by omega),
        List.getElem?_append_left (by rw [closeFence_length]; omega)] at h0
      exact absurd h0 (by decide)
    · exact Or.inr (by omega)
    · rw [List.getElem?_append_right (by omega : X.length ≤ k + 2),
        (show k + 2 - X.length = 4 by omega),
        List.getElem?_append_right closeFence_length.le] at h2
      exact absurd h2 (btAbsent_mem hpost)
    · rw [List.getElem?_append_right (by omega : X.length ≤ k + 1),
        (show k + 1 - X.length = 4 by omega),
        List.getElem?_append_right closeFence_length.le] at h1
      exact absurd h1 (btAbsent_mem hpost)
    · rw [List.getElem?_append_right (by omega : X.length ≤ k),
        List.getElem?_append_right (by rw [closeFence_length]; omega)] at h0
      exact absurd h0 (btAbsent_mem hpost)

lemma occ_block_open (pre X post : List Char) :
    occursAt fence (pre ++ (openFence ++ (X ++ (closeFence ++ post)))) pre.length := by
  rw [occursAt_iff]
  refine ⟨?_, ?_, ?_⟩
  · rw [List.getElem?_append_right (le_refl pre.length),
      (show pre.length - pre.length = 0 by omega),
      List.getElem?_append_left (by decide : (0 : Nat) < openFence.length)]
    decide
  · rw [List.getElem?_append_right (by omega : pre.length ≤ pre.length + 1),
      (show pre.length + 1 - pre.length = 1 by omega),
      List.getElem?_append_left (by decide : (1 : Nat) < openFence.length)]
    decide
  · rw [List.getElem?_append_right (by omega : pre.length ≤ pre.length + 2),
      (show pre.length + 2 - pre.length = 2 by omega),
      List.getElem?_append_left (by decide : (2 : Nat) < openFence.length)]
    decide

lemma occ_block_close (pre X post : List Char) :
    occursAt fence (pre ++ (openFence ++ (X ++ (closeFence ++ post))))
      (pre.length + X.length + 11) := by
  rw [occursAt_iff]
  refine ⟨?_, ?_, ?_⟩
  · rw [List.getElem?_append_right (by omega : pre.length ≤ pre.length + X.length + 11),
      (show pre.length + X.length + 11 - pre.length = X.length + 11 by omega),
      List.getElem?_append_right (by rw [openFence_length]; omega), openFence_length,
      (show X.length + 11 - 10 = X.length + 1 by omega),
      List.getElem?_append_right (by omega : X.length ≤ X.length + 1),
      (show X.length + 1 - X.length = 1 by omega),
      List.getElem?_append_left (by decide : (1 : Nat) < closeFence.length)]
    decide
  · rw [List.getElem?_append_right (by omega : pre.length ≤ pre.length + X.length + 11 + 1),
      (show pre.length + X.length + 11 + 1 - pre.length = X.length + 12 by omega),
      List.getElem?_append_right (by rw [openFence_length]; omega), openFence_length,
      (show X.length + 12 - 10 = X.length + 2 by omega),
      List.getElem?_append_right (by omega : X.length ≤ X.length + 2),
      (show X.length + 2 - X.length = 2 by omega),
      List.getElem?_append_left (by decide : (2 : Nat) < closeFence.length)]
    decide
  · rw [List.getElem?_append_right (by omega : pre.length ≤ pre.length + X.length + 11 + 2),
      (show pre.length + X.length + 11 + 2 - pre.length = X.length + 13 by omega),
      List.getElem?_append_right (by rw [openFence_length]; omega), openFence_length,
      (show X.length + 13 - 10 = X.length + 3 by omega),
      List.getElem?_append_right (by omega : X.length ≤ X.length + 3),
      (show X.length + 3 - X.length = 3 by omega),
      List.getElem?_append_left (by decide : (3 : Nat) < closeFence.length)]
    decide

lemma pyFind_block {pre X post : List Char} (hpre : bt ∉ pre) (hpost : bt ∉ post)
    (hX : ∀ k, ¬ occursAt fence X k) :
    pyFind fence (pre ++ (openFence ++ (X ++ (closeFence ++ post)))) = some pre.length := by
  apply pyFind_eq_some (occ_block_open pre X post)
  intro j hj hocc
  rcases occ_in_block hpre hpost hX hocc with rfl | rfl <;> omega

lemma pyRfind_block {pre X post : List Char} (hpre : bt ∉ pre) (hpost : bt ∉ post)
    (hX : ∀ k, ¬ occursAt fence X k) :
    pyRfind fence (pre ++ (openFence ++ (X ++ (closeFence ++ post)))) =
      some (pre.length + X.length + 11) := by
  apply pyRfind_eq_some (occ_block_close pre X post)
  intro j hj hocc
  rcases occ_in_block hpre hpost hX hocc with rfl | rfl <;> omega

lemma stripAndJoin_block (X : List Char) :
    stripAndJoin (openFence ++ (X ++ closeFence)) = some X := by
  have h1 : openFence ++ (X ++ closeFence) =
      "```python".toList ++ '\n' :: (X ++ '\n' :: fence) := by
    have e1 : openFence = "```python".toList ++ ['\n'] := by decide
    have e2 : closeFence = '\n' :: fence := by decide
    rw [e1, e2]
    simp
  have hsplit : splitNl (openFence ++ (X ++ closeFence)) =
      "```python".toList :: (splitNl X ++ [fence]) := by
    rw [h1, splitNl_append, splitNl_append,
      (by decide : splitNl ("```python".toList) = ["```python".toList]),
      (by decide : splitNl fence = [fence])]
    simp
  rw [stripAndJoin, hsplit]
  simp only [(by decide : isPre fence ("```python".toList) = true), if_true,
    List.getLast?_concat, List.dropLast_concat, if_pos rfl]
  exact congrArg some (joinNl_splitNl X)

lemma processContent_block {pre X post : List Char} (hpre : bt ∉ pre)
    (hpost : bt ∉ post) (hX : ∀ k, ¬ occursAt fence X k) :
    processContent (pre ++ (openFence ++ (X ++ (closeFence ++ post)))) =
      some (some X) := by
  simp only [processContent, pyFind_block hpre hpost hX, pyRfind_block hpre hpost hX]
  rw [if_neg (by omega : ¬ pre.length = pre.length + X.length + 11)]
  have hslice :
      ((pre ++ (openFence ++ (X ++ (closeFence ++ post)))).drop pre.length).take
        (pre.length + X.length + 11 + 3 - pre.length) = openFence ++ (X ++ closeFence) := by
    rw [List.drop_left, (show pre.length + X.length + 11 + 3 - pre.length = X.length + 14 by omega),
      (show openFence ++ (X ++ (closeFence ++ post)) =
        (openFence ++ (X ++ closeFence)) ++ post by simp)]
    exact List.take_left' (by
      simp only [List.length_append, openFence_length, closeFence_length]
      omega)
  rw [hslice, stripAndJoin_block]

/-! ## Lemmas: the scanning loop -/

lemma processContent_none_of_no_occ {c : List Char}
    (h : ∀ i, ¬ occursAt fence c i) : processContent c = none := by
  rw [processContent, pyFind_eq_none (fun j => h j)]

lemma processContent_none_of_single {c : List Char} {i : Nat}
    (hocc : occursAt fence c i) (huniq : ∀ j, occursAt fence c j → j = i) :
    processContent c = none := by
  have hf : pyFind fence c = some i :=
    pyFind_eq_some hocc (fun j hj hoj => absurd (huniq j hoj) (by omega))
  have hr : pyRfind fence c = some i :=
    pyRfind_eq_some hocc (fun j hj hoj => absurd (huniq j hoj) (by omega))
  simp [processContent, hf, hr]

lemma extractLoop_skip_of {ev : Event} (hev : Skippable ev) (rest : List Event) :
    extractLoop (ev :: rest) = extractLoop rest := by
  rw [extractLoop]
  rcases hev with hn | ⟨c, hc, hpc⟩
  · rw [hn]
  · rw [hc]
    show (match processContent c with
          | some r => r
          | none => extractLoop rest) = extractLoop rest
    rw [hpc]

lemma extractLoop_append_skip {l : List Event} (h : ∀ ev ∈ l, Skippable ev)
    (rest : List Event) : extractLoop (l ++ rest) = extractLoop rest := by
  induction l with
  | nil => rfl
  | cons ev l ih =>
    rw [List.cons_append, extractLoop_skip_of (h ev (by simp))]
    exact ih (fun e he => h e (by simp [he]))

lemma extractLoop_all_skip {l : List Event} (h : ∀ ev ∈ l, Skippable ev) :
    extractLoop l = some [] := by
  simpa using extractLoop_append_skip h []

lemma extractLoop_middle_skip {ev : Event} (hev : Skippable ev)
    (l1 l2 : List Event) :
    extractLoop (l1 ++ ev :: l2) = extractLoop (l1 ++ l2) := by
  induction l1 with
  | nil => simpa using extractLoop_skip_of hev l2
  | cons e1 l1 ih =>
    simp only [List.cons_append, extractLoop]
    cases he : e1.content with
    | none => simpa using ih
    | some c =>
      show (match processContent c with
            | some r => r
            | none => extractLoop (l1 ++ ev :: l2)) =
          (match processContent c with
            | some r => r
            | none => extractLoop (l1 ++ l2))
      cases hpc : processContent c with
      | none => exact ih
      | some r => rfl

/-! ## Claim theorems: code-fence extraction -/

/-- C1: if the final state's history contains exactly one fenced code
block, of the form ```` ```python\nX\n``` ````, inside some event's
textual content (no other event's content contains the fence delimiter,
no backquote around the block, no delimiter inside `X`), then
`_extract_code_from_state` returns exactly `X` — no fence markers, no
extra blank lines; and on a history in which no event content contains a
fenced block, it returns the empty string. -/
theorem extract_single_fenced_block (A B : List Event) (pre X post : List Char)
    (hpre : bt ∉ pre) (hpost : bt ∉ post) (hX : ¬ fence <:+: X)
    (hothers : ∀ ev, (ev ∈ A ∨ ev ∈ B) → ∀ c, ev.content = some c → ¬ fence <:+: c) :
    extractCodeFromState
        (A ++ ({ content := some (pre ++ (openFence ++ (X ++ (closeFence ++ post)))) } : Event) :: B)
      = some X
    ∧ ∀ H : List Event, (∀ ev ∈ H, ∀ c, ev.content = some c → ¬ fence <:+: c) →
        extractCodeFromState H = some [] := by
  have hXocc : ∀ k, ¬ occursAt fence X k := fun k hk => hX (occursAt_contains hk)
  constructor
  · rw [extractCodeFromState,
      (by simp : (A ++ ({ content := some (pre ++ (openFence ++ (X ++ (closeFence ++ post)))) } : Event) :: B).reverse
        = B.reverse ++ ({ content := some (pre ++ (openFence ++ (X ++ (closeFence ++ post)))) } : Event) :: A.reverse),
      extractLoop_append_skip ?hb]
    case hb =>
      intro e he
      rw [List.mem_reverse] at he
      cases hec : e.content with
      | none => exact Or.inl hec
      | some c =>
        refine Or.inr ⟨c, hec, processContent_none_of_no_occ ?_⟩
        intro k hk
        exact hothers e (Or.inr he) c hec (occursAt_contains hk)
    rw [extractLoop]
    show (match processContent (pre ++ (openFence ++ (X ++ (closeFence ++ post)))) with
          | some r => r
          | none => extractLoop A.reverse) = some X
    rw [processContent_block hpre hpost hXocc]
  · intro H hH
    rw [extractCodeFromState]
    apply extractLoop_all_skip
    intro e he
    rw [List.mem_reverse] at he
    cases hec : e.content with
    | none => exact Or.inl hec
    | some c =>
      refine Or.inr ⟨c, hec, processContent_none_of_no_occ ?_⟩
      intro k hk
      exact hH e he c hec (occursAt_contains hk)

/-- Witness for C1 at a concrete one-event history. -/
theorem extract_single_fenced_block_witness :
    extractCodeFromState [({ content := some ("```python\nx = 1\n```".toList) } : Event)]
      = some ("x = 1".toList) := by
  have h := extract_single_fenced_block [] [] [] ("x = 1".toList) []
    (by simp) (by simp)
    (by decide : ¬ fence <:+: ("x = 1".toList))
    (fun ev hev => by simp at hev)
  have e : ([] : List Char) ++ (openFence ++ ("x = 1".toList ++ (closeFence ++ ([] : List Char))))
      = "```python\nx = 1\n```".toList := by decide
  have h1 := h.1
  rw [e] at h1
  exact h1

/-- C10: an event whose textual content contains exactly one occurrence
of the fence delimiter (first and last occurrence coincide) is skipped by
`_extract_code_from_state`, which continues scanning the rest of the
history; and when no event content has two distinct occurrences of the
delimiter, the result is the empty string. -/
theorem single_fence_event_skipped (A B : List Event) (ev : Event) (c : List Char)
    (hc : ev.content = some c) (i : Nat) (hocc : occursAt fence c i)
    (huniq : ∀ j, occursAt fence c j → j = i) :
    extractCodeFromState (A ++ ev :: B) = extractCodeFromState (A ++ B)
    ∧ ∀ H : List Event,
        (∀ e ∈ H, ∀ d, e.content = some d →
          ∀ i j, occursAt fence d i → occursAt fence d j → i = j) →
        extractCodeFromState H = some [] := by
  constructor
  · rw [extractCodeFromState, extractCodeFromState,
      (by simp : (A ++ ev :: B).reverse = B.reverse ++ ev :: A.reverse),
      (by simp : (A ++ B).reverse = B.reverse ++ A.reverse)]
    exact extractLoop_middle_skip
      (Or.inr ⟨c, hc, processContent_none_of_single hocc huniq⟩) _ _
  · intro H hH
    rw [extractCodeFromState]
    apply extractLoop_all_skip
    intro e he
    rw [List.mem_reverse] at he
    cases hec : e.content with
    | none => exact Or.inl hec
    | some d =>
      refine Or.inr ⟨d, hec, ?_⟩
      by_cases hex : ∃ k, occursAt fence d k
      · obtain ⟨k, hk⟩ := hex
        exact processContent_none_of_single hk (fun j hj => hH e he d hec j k hj hk)
      · push_neg at hex
        exact processContent_none_of_no_occ hex

/-- Witness for C10 at a concrete history whose middle event contains a
single fence delimiter occurrence. -/
theorem single_fence_event_skipped_witness :
    extractCodeFromState
        [({ content := some ("a".toList) } : Event),
         ({ content := some ("x```y".toList) } : Event)]
      = extractCodeFromState [({ content := some ("a".toList) } : Event)] := by
  have huniq : ∀ j, occursAt fence ("x```y".toList) j → j = 1 := by
    intro j hj
    have hb := occursAt_bound hj
    have hlen : ("x```y".toList).length = 5 := by decide
    rw [hlen] at hb
    have hb2 : j ≤ 2 := by omega
    interval_cases j
    · exact absurd hj (by unfold occursAt; decide)
    · rfl
    · exact absurd hj (by unfold occursAt; decide)
  have h := single_fence_event_skipped [({ content := some ("a".toList) } : Event)] []
    ({ content := some ("x```y".toList) } : Event) ("x```y".toList) rfl 1
    (by unfold occursAt; decide) huniq
  simpa using h.1

/-! ## Claim theorems: configuration resolver -/

/-- C2: for every provider string absent from `LLM_CONFIG` (and not the
falsy empty string, which is replaced by the default), `get_llm_config`
raises a `ValueError` whose message names the unknown provider and
enumerates every valid provider key of the mapping. -/
theorem unknown_provider_error (env : String → Option String) (p : String)
    (hp : p ≠ "") (habs : ∀ kv ∈ LLM_CONFIG env, kv.1 ≠ p) :
    get_llm_config env (some p) = Except.error (unknownProviderMsg env p)
    ∧ p.data <:+: (unknownProviderMsg env p).data
    ∧ ∀ k ∈ (LLM_CONFIG env).map Prod.fst,
        k.data <:+: (unknownProviderMsg env p).data := by
  have hfind : (LLM_CONFIG env).find? (fun kv => kv.1 == p) = none :=
    List.find?_eq_none.mpr (fun kv hkv => by simp [habs kv hkv])
  refine ⟨?_, ?_, ?_⟩
  · simp only [get_llm_config, if_neg hp, hfind]
  · exact ⟨("Unknown provider: ").data,
      (". Available: " ++ pyListRepr ((LLM_CONFIG env).map Prod.fst)).data,
      by simp [unknownProviderMsg, String.data_append, List.append_assoc]⟩
  · have hmsg : (unknownProviderMsg env p).data =
        ("Unknown provider: " ++ p ++ ". Available: ").data ++
          (pyListRepr ((LLM_CONFIG env).map Prod.fst)).data := by
      simp [unknownProviderMsg, String.data_append, List.append_assoc]
    have lift : ∀ l : List Char,
        l <:+: (pyListRepr ((LLM_CONFIG env).map Prod.fst)).data →
        l <:+: (unknownProviderMsg env p).data := by
      intro l hl
      rw [hmsg]
      exact hl.trans (List.suffix_append _ _).isInfix
    have hkeys : (LLM_CONFIG env).map Prod.fst =
        ["deepseek_local", "deepseek_api", "openai", "anthropic"] := rfl
    intro k hk
    rw [hkeys] at hk
    simp only [List.mem_cons, List.not_mem_nil, or_false] at hk
    rcases hk with rfl | rfl | rfl | rfl <;>
      · apply lift
        rw [hkeys]
        decide

/-- Witness for C2 at the concrete unknown provider `"gpt5"`. -/
theorem unknown_provider_error_witness :
    get_llm_config (fun _ => none) (some "gpt5") =
      Except.error (unknownProviderMsg (fun _ => none) "gpt5")
    ∧ "gpt5".data <:+: (unknownProviderMsg (fun _ => none) "gpt5").data
    ∧ ∀ k ∈ (LLM_CONFIG (fun _ => none)).map Prod.fst,
        k.data <:+: (unknownProviderMsg (fun _ => none) "gpt5").data :=
  unknown_provider_error (fun _ => none) "gpt5" (by decide) (by decide)

/-- C3: every provider key present in `LLM_CONFIG` resolves without
raising to a profile whose `model` and `base_url` are non-empty. -/
theorem known_provider_profile_ok (env : String → Option String) (k : String)
    (hk : k ∈ (LLM_CONFIG env).map Prod.fst) :
    ∃ prof, get_llm_config env (some k) = Except.ok prof
      ∧ prof.model ≠ "" ∧ prof.base_url ≠ "" := by
  have hkeys : (LLM_CONFIG env).map Prod.fst =
      ["deepseek_local", "deepseek_api", "openai", "anthropic"] := rfl
  rw [hkeys] at hk
  simp only [List.mem_cons, List.not_mem_nil, or_false] at hk
  rcases hk with rfl | rfl | rfl | rfl
  · exact ⟨_, rfl, by decide, by decide⟩
  · exact ⟨_, rfl, by show "deepseek-chat" ≠ ""; decide,
      by show "https://api.deepseek.com/v1" ≠ ""; decide⟩
  · exact ⟨_, rfl, by show "gpt-4o" ≠ ""; decide,
      by show "https://api.openai.com/v1" ≠ ""; decide⟩
  · exact ⟨_, rfl, by show "claude-sonnet-4-20250514" ≠ ""; decide,
      by show "https://api.anthropic.com" ≠ ""; decide⟩

/-- Witness for C3 at the concrete provider `"openai"`. -/
theorem known_provider_profile_ok_witness :
    ("openai" ∈ (LLM_CONFIG (fun _ => none)).map Prod.fst)
    ∧ ∃ prof, get_llm_config (fun _ => none) (some "openai") = Except.ok prof
        ∧ prof.model ≠ "" ∧ prof.base_url ≠ "" :=
  ⟨by decide, known_provider_profile_ok (fun _ => none) "openai" (by decide)⟩

/-- C9: the empty provider string is falsy in
`provider = provider or DEFAULT_PROVIDER`, so it resolves exactly like an
omitted argument — to the default provider from the environment — and,
whenever that default is a key of the mapping, yields a profile rather
than an unknown-provider error. -/
theorem empty_provider_uses_default (env : String → Option String) :
    get_llm_config env (some "") = get_llm_config env none
    ∧ (DEFAULT_PROVIDER env ∈ (LLM_CONFIG env).map Prod.fst →
        ∃ prof, get_llm_config env (some "") = Except.ok prof) := by
  have h1 : get_llm_config env (some "") = get_llm_config env none := rfl
  refine ⟨h1, ?_⟩
  intro hd
  rw [h1]
  simp only [get_llm_config]
  have hex : ∃ x ∈ LLM_CONFIG env, (fun kv => kv.1 == DEFAULT_PROVIDER env) x = true := by
    simp only [List.mem_map] at hd
    obtain ⟨kv, hkv, hkveq⟩ := hd
    exact ⟨kv, hkv, by simp [hkveq]⟩
  obtain ⟨kv, hkv⟩ := Option.isSome_iff_exists.mp (List.find?_isSome.mpr hex)
  exact ⟨kv.2, by rw [hkv]⟩

/-- Witness for C9 with an empty environment (default `deepseek_local`). -/
theorem empty_provider_uses_default_witness :
    get_llm_config (fun _ => none) (some "") = get_llm_config (fun _ => none) none
    ∧ ∃ prof, get_llm_config (fun _ => none) (some "") = Except.ok prof :=
  ⟨(empty_provider_uses_default (fun _ => none)).1,
   (empty_provider_uses_default (fun _ => none)).2 (by decide)⟩

/-! ## Claim theorems: client facade -/

/-- C4: on a started client, `write_file(p, c)` followed by
`read_file(p)` returns exactly `c`, assuming the external runtime's
file-write action succeeds (returns the file-write observation variant)
and its file-read action returns the file-read observation variant
reflecting the written content. -/
theorem write_read_roundtrip {σ : Type} (step : σ → Action → Observation × σ)
    (c : Client σ) (r : σ) (hc : c.runtime = some r) (p content : String)
    (obs1 : Observation) (r1 : σ)
    (hstep1 : step r (Action.fileWrite (resolvePath c.workspace_dir p) content) = (obs1, r1))
    (hw : ∃ pc, obs1 = Observation.fileWrite pc)
    (obs2 : Observation) (r2 : σ)
    (hstep2 : step r1 (Action.fileRead (resolvePath c.workspace_dir p)) = (obs2, r2))
    (hr : obs2 = Observation.fileRead content) :
    writeFile step c p content = Except.ok (true, { c with runtime := some r1 })
    ∧ readFile step { c with runtime := some r1 } p =
        Except.ok (content, { c with runtime := some r2 }) := by
  obtain ⟨pc, rfl⟩ := hw
  subst hr
  constructor
  · rw [writeFile, hc]
    simp [hstep1]
  · rw [readFile]
    simp [hstep2]

/-- Witness for C4: the store-based runtime on a concrete path/content. -/
theorem write_read_roundtrip_witness :
    writeFile storeStep
        (⟨"deepseek_local", "ws", true, some []⟩ : Client (List (String × String)))
        "a.txt" "hi"
      = Except.ok (true, ⟨"deepseek_local", "ws", true, some [("ws/a.txt", "hi")]⟩)
    ∧ readFile storeStep
        (⟨"deepseek_local", "ws", true, some [("ws/a.txt", "hi")]⟩
          : Client (List (String × String))) "a.txt"
      = Except.ok ("hi", ⟨"deepseek_local", "ws", true, some [("ws/a.txt", "hi")]⟩) :=
  write_read_roundtrip storeStep _ [] rfl "a.txt" "hi"
    (Observation.fileWrite "hi") [("ws/a.txt", "hi")] (by decide) ⟨"hi", rfl⟩
    (Observation.fileRead "hi") [("ws/a.txt", "hi")] (by decide) rfl

/-- C5: `stop` on a client that was never started (`self.runtime` is
`None`) is a no-op: it raises nothing, never invokes the runtime close,
and leaves the client state — runtime handle, workspace path, provider —
unchanged, whatever the external `close` would do. -/
theorem stop_before_start_noop {σ : Type} (close : σ → Except PyErr Unit)
    (c : Client σ) (h : c.runtime = none) :
    stopClient close c = Except.ok (c, []) := by
  rw [stopClient, h]

/-- Witness for C5, with a `close` that would raise if it were called. -/
theorem stop_before_start_noop_witness :
    stopClient (fun _ : Unit => Except.error PyErr.attributeError)
        (⟨"deepseek_local", "ws", true, none⟩ : Client Unit)
      = Except.ok (⟨"deepseek_local", "ws", true, none⟩, []) :=
  stop_before_start_noop _ _ rfl

/-- C6: on a freshly constructed synchronous wrapper (on which `start`
was never called), `run_command` raises `AttributeError` — there is no
runtime handle — and in particular never returns an output string, empty
or otherwise. -/
theorem sync_run_command_before_start_raises {σ : Type}
    (env : String → Option String) (provider : String) (ws : Option String)
    (vb : Bool) (sc : SyncClient σ)
    (hinit : initSync env provider ws vb = Except.ok sc)
    (step : σ → Action → Observation × σ) (command : String) :
    syncRunCommand step sc command = Except.error PyErr.attributeError
    ∧ ∀ out c', syncRunCommand step sc command ≠ Except.ok (out, c') := by
  have hrt : sc.client.runtime = none := by
    rw [initSync, initClient] at hinit
    cases hg : get_llm_config env (some provider) with
    | error e => rw [hg] at hinit; cases hinit
    | ok prof =>
      rw [hg] at hinit
      cases hinit
      rfl
  have h1 : syncRunCommand step sc command = Except.error PyErr.attributeError := by
    rw [syncRunCommand, runCommand, hrt]
  exact ⟨h1, fun out c' hco => by rw [h1] at hco; cases hco⟩

/-- Witness for C6 at a concrete freshly initialised sync client. -/
theorem sync_run_command_before_start_raises_witness :
    initSync (fun _ => none) "deepseek_local" none true =
      Except.ok (⟨⟨"deepseek_local", "./workspace", true, none⟩⟩ : SyncClient Unit)
    ∧ syncRunCommand (fun (u : Unit) _ => (Observation.cmdOutput "", u))
        (⟨⟨"deepseek_local", "./workspace", true, none⟩⟩ : SyncClient Unit) "ls -la"
      = Except.error PyErr.attributeError :=
  ⟨rfl,
   (sync_run_command_before_start_raises (fun _ => none) "deepseek_local" none true
      _ rfl _ "ls -la").1⟩

/-- C7: `browse_url` on an observation that is not of the browser-output
variant returns a dictionary with exactly the single key `content`, whose
value is the string form of the observation; on a browser-output
observation it returns exactly the keys `url`, `content`, `screenshot`
taken from the observation's fields. -/
theorem browse_url_dict_shape {σ : Type} (step : σ → Action → Observation × σ)
    (c : Client σ) (r : σ) (hc : c.runtime = some r) (url : String)
    (obs : Observation) (r' : σ)
    (hstep : step r (Action.browseURL url) = (obs, r')) :
    (obs.isBrowserOutput = false →
      browseUrl step c url =
        Except.ok ([("content", obsStr obs)], { c with runtime := some r' })
      ∧ [("content", obsStr obs)].map Prod.fst = ["content"])
    ∧ ∀ u co s, obs = Observation.browserOutput u co s →
      browseUrl step c url =
        Except.ok ([("url", u), ("content", co), ("screenshot", s)],
          { c with runtime := some r' })
      ∧ ([("url", u), ("content", co), ("screenshot", s)]
          : List (String × String)).map Prod.fst = ["url", "content", "screenshot"] := by
  constructor
  · intro hno
    refine ⟨?_, by simp⟩
    rw [browseUrl, hc]
    cases obs <;> simp_all [Observation.isBrowserOutput, hstep]
  · rintro u co s rfl
    refine ⟨?_, by simp⟩
    rw [browseUrl, hc]
    simp [hstep]

/-- Witness for C7 with a runtime returning a non-browser observation. -/
theorem browse_url_dict_shape_witness :
    browseUrl (fun (u : Unit) _ => (Observation.errorObs "boom", u))
        (⟨"p", "ws", true, some ()⟩ : Client Unit) "http://e"
      = Except.ok ([("content", obsStr (Observation.errorObs "boom"))],
          ⟨"p", "ws", true, some ()⟩) :=
  ((browse_url_dict_shape (fun (u : Unit) _ => (Observation.errorObs "boom", u))
      _ () rfl "http://e" (Observation.errorObs "boom") () rfl).1 rfl).1

/-! ## Claim theorems: CLI file-based operations -/

/-- C8: when the file does not exist, `review_file`, `explain_file` and
`fix_file` catch the `FileNotFoundError`, print the file-not-found
message, and return the empty string to the caller instead of
propagating the exception. -/
theorem cli_file_not_found_empty (llm : String → String → String)
    (fs : String → Option String) (filepath model : String) (error : Option String)
    (h : fs filepath = none) :
    review_file llm fs filepath model = Except.ok ([fileNotFoundMsg filepath], "")
    ∧ explain_file llm fs filepath model = Except.ok ([fileNotFoundMsg filepath], "")
    ∧ fix_file llm fs filepath error model = Except.ok ([fileNotFoundMsg filepath], "") := by
  refine ⟨?_, ?_, ?_⟩ <;> simp [review_file, explain_file, fix_file, h]

/-- Witness for C8 on an empty filesystem. -/
theorem cli_file_not_found_empty_witness :
    review_file (fun _ _ => "") (fun _ => none) "missing.py" DEFAULT_MODEL =
      Except.ok ([fileNotFoundMsg "missing.py"], "")
    ∧ explain_file (fun _ _ => "") (fun _ => none) "missing.py" DEFAULT_MODEL =
      Except.ok ([fileNotFoundMsg "missing.py"], "")
    ∧ fix_file (fun _ _ => "") (fun _ => none) "missing.py" (some "IndexError") DEFAULT_MODEL =
      Except.ok ([fileNotFoundMsg "missing.py"], "") :=
  cli_file_not_found_empty (fun _ _ => "") (fun _ => none) "missing.py"
    DEFAULT_MODEL (some "IndexError") rfl

end OpenHands

